import Mathlib

/-!
Shallow embedding of the checkpoint data-fetching core of the
`dui-mobile-app` repository: the date classification utility
(`parseLocalDate`, `isToday`, `isUpcoming`, `isPast` from the date utils
module), the checkpoint query service (`getCheckpoints`,
`getCheckpointById` from `src/lib/api/checkpoints.ts`) and the state
transitions of the `useCheckpoints` hook
(`src/hooks/use-checkpoints.ts`).
-/

namespace DuiApp

/-! ### Calendar arithmetic underlying the JavaScript `Date` constructor -/

/-- Epoch day number (days since 1970-01-01) of the civil date `(y, m, d)`,
where `m` is a 1-based month in `1..12` and `d` may lie outside the month
(day overflow moves linearly through the calendar), following the standard
civil-from-days algorithm with floor division. -/
def daysFromCivil (y m d : Int) : Int :=
  let y2 := if m ≤ 2 then y - 1 else y
  let era := Int.fdiv y2 400
  let yoe := y2 - era * 400
  let mp := Int.emod (m + 9) 12
  let doy := Int.fdiv (153 * mp + 2) 5 + d - 1
  let doe := yoe * 365 + Int.fdiv yoe 4 - Int.fdiv yoe 100 + doy
  era * 146097 + doe - 719468

/-- Epoch day of the local calendar date produced by the JavaScript
constructor `new Date(y, m0, d)`: `m0` is 0-based and overflows into the
year, `d` overflows through months, and a year argument in `0..99` is read
as `1900 + y`. -/
def jsMakeDay (y m0 d : Int) : Int :=
  let yr := if 0 ≤ y ∧ y ≤ 99 then y + 1900 else y
  daysFromCivil (yr + Int.fdiv m0 12) (Int.emod m0 12 + 1) d

/-- `String.prototype.split('-')`, on the character list of the string.
Splitting the empty string yields one empty component, as in JavaScript. -/
def splitOnDash : List Char → List (List Char)
  | [] => [[]]
  | c :: rest =>
    if c = '-' then [] :: splitOnDash rest
    else match splitOnDash rest with
      | [] => [[c]]
      | h :: t => (c :: h) :: t

/-- Accumulator loop reading a run of decimal digits; `none` on any
non-digit character. -/
def digitsCore : List Char → Nat → Option Nat
  | [], acc => some acc
  | c :: cs, acc =>
    if c.isDigit then digitsCore cs (acc * 10 + (c.toNat - 48)) else none

/-- JavaScript `Number(...)` applied to one component of the split,
restricted to the strings occurring in `YYYY-MM-DD` values: the empty
string converts to `0`, a string of decimal digits to its value, and any
other component to `NaN`, modelled as `none`. -/
def jsNumber : List Char → Option Int
  | [] => some 0
  | l => (digitsCore l 0).map Int.ofNat

/-- The ambient clock at evaluation time.  `localDays` is the epoch day of
the current calendar date in the device's local time zone (what
`new Date()` exposes through `toDateString()` or after
`setHours(0,0,0,0)`); `utcDateStr` is the `YYYY-MM-DD` prefix of
`new Date().toISOString()`, i.e. the current calendar date in UTC.  The
two differ whenever local time and UTC fall on different sides of
midnight. -/
structure Env where
  localDays : Int
  utcDateStr : String

/-! ### The date classification utility (date utils module) -/

/-- `parseLocalDate(dateString)`: splits the string on `'-'`, converts the
first three components with `Number`, and constructs the local calendar
date `new Date(year, month - 1, day)`.  The result is the epoch day of
that local date; `none` models an invalid `Date` (`NaN` components). -/
def parseLocalDate (dateString : String) : Option Int :=
  match splitOnDash dateString.data with
  | y :: m :: d :: _ =>
    match jsNumber y, jsNumber m, jsNumber d with
    | some yi, some mi, some di => some (jsMakeDay yi (mi - 1) di)
    | _, _, _ => none
  | _ => none

/-- `isToday(dateString)`: false on null/undefined (`none`) or empty
input; otherwise compares `parseLocalDate(dateString).toDateString()` with
`new Date().toDateString()`, i.e. the parsed local calendar day with the
current local calendar day.  An invalid parse renders as
`"Invalid Date"` and never equals a real date string. -/
def isToday (dateString : Option String) (env : Env) : Bool :=
  match dateString with
  | none => false
  | some s =>
    if s = "" then false
    else match parseLocalDate s with
      | none => false
      | some days => decide (days = env.localDays)

/-- `isUpcoming(dateString)`: false on null/undefined or empty input;
otherwise truncates both the parsed date and `new Date()` to local
midnight with `setHours(0,0,0,0)` and tests `checkpointDate >= today`.
A comparison against an invalid date (`NaN`) is false. -/
def isUpcoming (dateString : Option String) (env : Env) : Bool :=
  match dateString with
  | none => false
  | some s =>
    if s = "" then false
    else match parseLocalDate s with
      | none => false
      | some days => decide (env.localDays ≤ days)

/-- `isPast(dateString)`: false on null/undefined or empty input;
otherwise the boolean negation of `isUpcoming`. -/
def isPast (dateString : Option String) (env : Env) : Bool :=
  match dateString with
  | none => false
  | some s => if s = "" then false else ! isUpcoming (some s) env

/-! ### Postgres `ILIKE` pattern matching -/

/-- Case-insensitive SQL `LIKE` matching as used by the PostgREST `ilike`
filter: `%` matches any sequence of characters, `_` matches exactly one
character, and any other pattern character matches itself up to case
folding.  (Escape sequences do not occur in the patterns the client
builds from metacharacter-free filter text.) -/
def likeMatch : List Char → List Char → Bool
  | [], s => s.isEmpty
  | a :: p, s =>
    if a = '%' then
      likeMatch p s ||
        (match s with
          | [] => false
          | _ :: s2 => likeMatch (a :: p) s2)
    else
      match s with
      | [] => false
      | c :: s2 =>
        (if a = '_' then true else a.toLower == c.toLower) && likeMatch p s2
termination_by p s => p.length + s.length
decreasing_by all_goals simp [List.length] <;> omega

/-- Filter texts free of the `LIKE` metacharacters, for which an `ilike`
pattern means literal (case-insensitive) matching. -/
def noWild (s : String) : Prop := ∀ c ∈ s.data, c ≠ '%' ∧ c ≠ '_'

instance (s : String) : Decidable (noWild s) := by
  unfold noWild; infer_instance

/-! ### Data model (`src/lib/types/checkpoint.ts`) -/

/-- A checkpoint record of the `Checkpoints` table. -/
structure Checkpoint where
  id : Int
  Date : String
  State : String
  City : String
  County : String
  Location : Option String := none
  Time : Option String := none
  Notes : Option String := none
  created_at : Option String := none
  updated_at : Option String := none
deriving DecidableEq

/-- The optional query descriptor accepted by `getCheckpoints`. -/
structure CheckpointFilters where
  state : Option String := none
  city : Option String := none
  county : Option String := none
  upcoming : Option Bool := none
deriving DecidableEq

/-- JavaScript truthiness of `filters?.field` for a string field:
`undefined`/null and the empty string are falsy. -/
def truthy : Option String → Bool
  | none => false
  | some s => decide (s ≠ "")

/-- JavaScript truthiness of `filters?.upcoming`. -/
def truthyBool : Option Bool → Bool
  | none => false
  | some b => b

/-! ### The checkpoint query service (`src/lib/api/checkpoints.ts`) -/

/-- The query `getCheckpoints` builds before executing it: one optional
`ilike` pattern per filtered column and an optional `gte` bound on
`Date`; the query always carries `order('Date', { ascending: true })`. -/
structure BuiltQuery where
  stateIlike : Option String
  cityIlike : Option String
  countyIlike : Option String
  dateGte : Option String
deriving DecidableEq

/-- The filter-application chain of `getCheckpoints`: starting from the
bare ordered query, each `if (filters?.x)` adds its condition — an exact
`ilike` for `state`, substring `ilike` patterns for `city`/`county`, and
for a truthy `upcoming` a `gte('Date', today)` bound where `today` is
`new Date().toISOString().split('T')[0]`, the current UTC calendar
date. -/
def buildQuery (filters : Option CheckpointFilters) (env : Env) : BuiltQuery :=
  let q0 : BuiltQuery := ⟨none, none, none, none⟩
  let st := filters.bind CheckpointFilters.state
  let q1 := if truthy st then { q0 with stateIlike := st } else q0
  let ci := filters.bind CheckpointFilters.city
  let q2 :=
    if truthy ci then { q1 with cityIlike := ci.map (fun c => "%" ++ c ++ "%") }
    else q1
  let co := filters.bind CheckpointFilters.county
  let q3 :=
    if truthy co then { q2 with countyIlike := co.map (fun c => "%" ++ c ++ "%") }
    else q2
  let up := filters.bind CheckpointFilters.upcoming
  let q4 := if truthyBool up then { q3 with dateGte := some env.utcDateStr } else q3
  q4

/-- One optional `ilike` condition of the built query against a column
value. -/
def colCond (pat : Option String) (text : String) : Bool :=
  match pat with
  | none => true
  | some p => likeMatch p.data text.data

/-- Lexicographic comparison of character lists by code point: on
zero-padded `YYYY-MM-DD` strings this coincides with the order of the
underlying SQL `DATE` values. -/
def charListLe : List Char → List Char → Bool
  | [], _ => true
  | _ :: _, [] => false
  | a :: as, b :: bs =>
    if a.toNat < b.toNat then true
    else if b.toNat < a.toNat then false
    else charListLe as bs

/-- One comparison step of `charListLe` on cons cells. -/
theorem charListLe_cons_iff (a b : Char) (as bs : List Char) :
    charListLe (a :: as) (b :: bs) = true
      ↔ a.toNat < b.toNat
        ∨ (a.toNat = b.toNat ∧ charListLe as bs = true) := by
  simp only [charListLe]
  split_ifs with h1 h2
  · simp [h1]
  · simp only [false_iff]
    rintro (h | ⟨he, _⟩) <;> omega
  · constructor
    · intro h
      exact Or.inr ⟨by omega, h⟩
    · rintro (h | ⟨_, h⟩)
      · omega
      · exact h

/-- `charListLe` is transitive. -/
theorem charListLe_trans :
    ∀ l1 l2 l3, charListLe l1 l2 = true → charListLe l2 l3 = true →
      charListLe l1 l3 = true
  | [], _, _, _, _ => rfl
  | _ :: _, [], _, h1, _ => by simp [charListLe] at h1
  | _ :: _, _ :: _, [], _, h2 => by simp [charListLe] at h2
  | a :: as, b :: bs, c :: cs, h1, h2 => by
    rw [charListLe_cons_iff] at h1 h2 ⊢
    rcases h1 with h1 | ⟨h1e, h1r⟩
    · rcases h2 with h2 | ⟨h2e, _⟩
      · exact Or.inl (Nat.lt_trans h1 h2)
      · exact Or.inl (by omega)
    · rcases h2 with h2 | ⟨h2e, h2r⟩
      · exact Or.inl (by omega)
      · exact Or.inr ⟨h1e.trans h2e, charListLe_trans as bs cs h1r h2r⟩

/-- `charListLe` is total. -/
theorem charListLe_total :
    ∀ l1 l2, charListLe l1 l2 = true ∨ charListLe l2 l1 = true
  | [], _ => Or.inl rfl
  | _ :: _, [] => Or.inr rfl
  | a :: as, b :: bs => by
    rw [charListLe_cons_iff, charListLe_cons_iff]
    rcases Nat.lt_trichotomy a.toNat b.toNat with h | h | h
    · exact Or.inl (Or.inl h)
    · rcases charListLe_total as bs with hr | hr
      · exact Or.inl (Or.inr ⟨h, hr⟩)
      · exact Or.inr (Or.inr ⟨h.symm, hr⟩)
    · exact Or.inr (Or.inl h)

/-- String comparison through `charListLe`. -/
def strLe (a b : String) : Bool := charListLe a.data b.data

/-- The optional `gte` condition of the built query against the `Date`
column; `DATE` values in `YYYY-MM-DD` form compare as their lexicographic
string order. -/
def gteCond (bound : Option String) (text : String) : Bool :=
  match bound with
  | none => true
  | some t => strLe t text

/-- Whether a row satisfies every condition of a built query; PostgREST
conjoins all filter parameters of one request. -/
def rowMatches (q : BuiltQuery) (r : Checkpoint) : Bool :=
  colCond q.stateIlike r.State && colCond q.cityIlike r.City
    && colCond q.countyIlike r.County && gteCond q.dateGte r.Date

/-- Row order produced by `order('Date', { ascending: true })`. -/
def dateLe (a b : Checkpoint) : Prop := strLe a.Date b.Date = true

instance : DecidableRel dateLe := fun a b =>
  inferInstanceAs (Decidable (strLe a.Date b.Date = true))

instance : IsTotal Checkpoint dateLe :=
  ⟨fun a b => charListLe_total a.Date.data b.Date.data⟩

instance : IsTrans Checkpoint dateLe :=
  ⟨fun a b c => charListLe_trans a.Date.data b.Date.data c.Date.data⟩

/-- Server-side evaluation of a built query over the table rows: the rows
satisfying every filter, ordered ascending by `Date`. -/
def runQuery (table : List Checkpoint) (q : BuiltQuery) : List Checkpoint :=
  (table.filter (rowMatches q)).insertionSort dateLe

/-- Outcome of awaiting the remote list query: the store holds rows and
answers the built query, answers with `data = null` and no error, reports
an error, or the await throws locally (`some msg` when the thrown value
is an `Error` carrying a message). -/
inductive StoreBehavior where
  | table (rows : List Checkpoint)
  | nullData
  | failure (message : String)
  | thrown (e : Option String)
deriving DecidableEq

/-- The `CheckpointResponse | CheckpointError` union returned by
`getCheckpoints`. -/
inductive ListResult where
  | success (count : Nat) (checkpoints : List Checkpoint)
  | failure (error : String) (details : Option String)
deriving DecidableEq

/-- The rows the store returns for `getCheckpoints(filters)` when it
holds `table`. -/
def queryRows (table : List Checkpoint) (filters : Option CheckpointFilters)
    (env : Env) : List Checkpoint :=
  runQuery table (buildQuery filters env)

/-- `getCheckpoints(filters)`: builds the ordered, filtered query, awaits
it, and wraps the outcome in the envelope — a store error becomes
`{ error: "Failed to fetch checkpoints", details }`, a local exception
`{ error: "Internal server error", details }` (details `"Unknown error"`
when the thrown value is not an `Error`), and otherwise success with
`count = data?.length ?? 0` and `checkpoints = data ?? []`. -/
def getCheckpoints (store : StoreBehavior)
    (filters : Option CheckpointFilters) (env : Env) : ListResult :=
  match store with
  | .thrown e => .failure "Internal server error" (some (e.getD "Unknown error"))
  | .failure msg => .failure "Failed to fetch checkpoints" (some msg)
  | .nullData => .success 0 []
  | .table rows =>
    let data := queryRows rows filters env
    .success data.length data

/-- Outcome of awaiting `.select('*').eq('id', id).single()`. -/
inductive SingleTransport where
  | data (row : Checkpoint)
  | err (code : String) (message : String)
  | thrown (e : Option String)
deriving DecidableEq

/-- `.single()` at the store: the unique row matching the id, or the
PostgREST error with code `PGRST116` when the match is not exactly one
row. -/
def runSingle (table : List Checkpoint) (i : Int) : SingleTransport :=
  match table.filter (fun r => r.id == i) with
  | [r] => .data r
  | _ => .err "PGRST116" "JSON object requested, multiple (or no) rows returned"

/-- The `SingleCheckpointResponse | CheckpointError` union returned by
`getCheckpointById`. -/
inductive SingleResult where
  | success (checkpoint : Checkpoint)
  | failure (error : String) (details : Option String)
deriving DecidableEq

/-- `getCheckpointById(id)`: the `PGRST116` error code becomes the
dedicated `{ error: "Checkpoint not found" }` without details; any other
store error becomes `{ error: "Failed to fetch checkpoint", details }`;
a local exception becomes `{ error: "Internal server error", details }`. -/
def getCheckpointById (t : SingleTransport) : SingleResult :=
  match t with
  | .data r => .success r
  | .err code msg =>
    if code = "PGRST116" then .failure "Checkpoint not found" none
    else .failure "Failed to fetch checkpoint" (some msg)
  | .thrown e => .failure "Internal server error" (some (e.getD "Unknown error"))

/-! ### The `useCheckpoints` hook (`src/hooks/use-checkpoints.ts`) -/

/-- The observable state held by the `useCheckpoints` hook. -/
structure HookState where
  checkpoints : List Checkpoint
  count : Nat
  loading : Bool
  error : Option String
deriving DecidableEq

/-- The synchronous prefix of the hook's `fetchCheckpoints`:
`setLoading(true); setError(null)` before the query is awaited. -/
def fetchStart (s : HookState) : HookState :=
  { s with loading := true, error := none }

/-- The continuation of the hook's `fetchCheckpoints` once
`getCheckpoints` resolves: a result with an `error` field stores the
message and resets the data to `[]` with count `0`; a success stores the
data; either way loading ends. -/
def fetchResolve (s : HookState) (result : ListResult) : HookState :=
  match result with
  | .failure e _ =>
    { s with error := some e, checkpoints := [], count := 0, loading := false }
  | .success n cps =>
    { s with checkpoints := cps, count := n, loading := false }

/-- One full `fetchCheckpoints` call of the hook whose awaited query
resolves to `result`. -/
def fetchCheckpoints (s : HookState) (result : ListResult) : HookState :=
  fetchResolve (fetchStart s) result

/-- A sample record: an upcoming Los Angeles checkpoint dated
2024-12-25. -/
def sampleCheckpoint : Checkpoint :=
  { id := 1, Date := "2024-12-25", State := "CA", City := "Los Angeles",
    County := "Los Angeles" }

/-! ### Claims about the date classification utility -/

/-- **C2**: for every non-empty date string `d`, exactly one of
`isUpcoming d` and `isPast d` holds — `isPast` is the boolean negation of
`isUpcoming` there — while for null (`none`) or empty input both
predicates are false, so they are not complements in the absence case. -/
theorem isUpcoming_isPast_complement (env : Env) (s : String) (h : s ≠ "") :
    Bool.xor (isUpcoming (some s) env) (isPast (some s) env) = true
    ∧ isPast (some s) env = ! isUpcoming (some s) env
    ∧ isUpcoming none env = false ∧ isPast none env = false
    ∧ isUpcoming (some "") env = false ∧ isPast (some "") env = false := by
  have hp : isPast (some s) env = ! isUpcoming (some s) env := by
    simp [isPast, h]
  refine ⟨?_, hp, rfl, rfl, ?_, ?_⟩
  · rw [hp]; cases isUpcoming (some s) env <;> rfl
  · simp [isUpcoming]
  · simp [isPast]

/-- Witness for C2 at the concrete non-empty date string `"2024-12-25"`. -/
theorem isUpcoming_isPast_complement_witness :
    Bool.xor (isUpcoming (some "2024-12-25") ⟨20082, ""⟩)
        (isPast (some "2024-12-25") ⟨20082, ""⟩) = true
    ∧ isPast (some "2024-12-25") ⟨20082, ""⟩
        = ! isUpcoming (some "2024-12-25") ⟨20082, ""⟩
    ∧ isUpcoming none ⟨20082, ""⟩ = false ∧ isPast none ⟨20082, ""⟩ = false
    ∧ isUpcoming (some "") ⟨20082, ""⟩ = false
    ∧ isPast (some "") ⟨20082, ""⟩ = false :=
  isUpcoming_isPast_complement ⟨20082, ""⟩ "2024-12-25" (by decide)

/-- **C7**: a date string whose parsed local calendar day equals today's
local calendar day is classified upcoming, never past. -/
theorem today_is_upcoming_not_past (env : Env) (s : String)
    (h : parseLocalDate s = some env.localDays) :
    isUpcoming (some s) env = true ∧ isPast (some s) env = false := by
  have hs : s ≠ "" := by
    intro he; subst he
    rw [show parseLocalDate "" = none from rfl] at h
    exact Option.noConfusion h
  refine ⟨?_, ?_⟩
  · simp [isUpcoming, hs, h]
  · simp [isPast, hs, isUpcoming, h]

/-- Witness for C7: `"2024-12-25"` when the local calendar date is
2024-12-25. -/
theorem today_is_upcoming_not_past_witness :
    isUpcoming (some "2024-12-25") ⟨jsMakeDay 2024 11 25, "2024-12-25"⟩ = true
    ∧ isPast (some "2024-12-25") ⟨jsMakeDay 2024 11 25, "2024-12-25"⟩
        = false :=
  today_is_upcoming_not_past ⟨jsMakeDay 2024 11 25, "2024-12-25"⟩
    "2024-12-25" (by decide)

/-- **C3**: `parseLocalDate` splits `"YYYY-MM-DD"` into year, month and
day numbers and constructs the local calendar day — the value for
`"2024-12-25"` is exactly that of `new Date(2024, 11, 25)` — and `isToday`
compares it only against the current local calendar date: it is
independent of the current UTC date, true on `"2024-12-25"` whenever the
local date is 2024-12-25 whatever the UTC calendar day, and in general
true iff the parse succeeds with today's local day. -/
theorem isToday_local_not_utc :
    parseLocalDate "2024-12-25" = some (jsMakeDay 2024 11 25)
    ∧ (∀ s : String, ∀ e1 e2 : Env, e1.localDays = e2.localDays →
        isToday (some s) e1 = isToday (some s) e2)
    ∧ (∀ utc : String,
        isToday (some "2024-12-25") ⟨jsMakeDay 2024 11 25, utc⟩ = true)
    ∧ (∀ s : String, ∀ env : Env,
        isToday (some s) env = true
          ↔ s ≠ "" ∧ parseLocalDate s = some env.localDays) := by
  refine ⟨by decide, ?_, ?_, ?_⟩
  · intro s e1 e2 h
    by_cases hs : s = ""
    · simp [isToday, hs]
    · cases hp : parseLocalDate s <;> simp [isToday, hs, hp, h]
  · intro utc
    simp [isToday, show parseLocalDate "2024-12-25"
      = some (jsMakeDay 2024 11 25) from by decide]
  · intro s env
    by_cases hs : s = ""
    · simp [isToday, hs]
    · cases hp : parseLocalDate s <;> simp [isToday, hs, hp]

/-- Witness for C3: with local date 2024-12-25, the classification of
`"2024-12-25"` is the same whether the UTC calendar day is 2024-12-26 or
2024-12-25, and it is `true`. -/
theorem isToday_local_not_utc_witness :
    isToday (some "2024-12-25") ⟨jsMakeDay 2024 11 25, "2024-12-26"⟩
      = isToday (some "2024-12-25") ⟨jsMakeDay 2024 11 25, "2024-12-25"⟩
    ∧ isToday (some "2024-12-25") ⟨jsMakeDay 2024 11 25, "2024-12-26"⟩
        = true :=
  ⟨isToday_local_not_utc.2.1 "2024-12-25" _ _ rfl,
   isToday_local_not_utc.2.2.1 "2024-12-26"⟩

/-! ### Claims about the query service -/

/-- **C4**: `getCheckpoints` always returns a tagged envelope, never an
exception: rows (or null data) give `success` with `count` equal to the
number of returned records — zero matches included — a store error gives
`"Failed to fetch checkpoints"` with the store message as details, and a
local exception gives `"Internal server error"` with the exception
message (or `"Unknown error"`). -/
theorem getCheckpoints_envelope :
    (∀ rows filters env, getCheckpoints (.table rows) filters env
        = .success (queryRows rows filters env).length
            (queryRows rows filters env))
    ∧ (∀ filters env, getCheckpoints .nullData filters env = .success 0 [])
    ∧ (∀ msg filters env, getCheckpoints (.failure msg) filters env
        = .failure "Failed to fetch checkpoints" (some msg))
    ∧ (∀ e filters env, getCheckpoints (.thrown e) filters env
        = .failure "Internal server error" (some (e.getD "Unknown error"))) :=
  ⟨fun _ _ _ => rfl, fun _ _ => rfl, fun _ _ _ => rfl, fun _ _ _ => rfl⟩

/-- **C9**: every query `getCheckpoints` builds orders its rows ascending
by `Date`, and the unfiltered call succeeds with the full record set:
the rows are a permutation of the table, sorted, and `count` is the table
size. -/
theorem query_ordered_by_date :
    (∀ table filters env, List.Sorted dateLe (queryRows table filters env))
    ∧ (∀ table env,
        (queryRows table none env).Perm table
        ∧ getCheckpoints (.table table) none env
            = .success table.length (queryRows table none env)) := by
  constructor
  · intro table filters env
    exact List.sorted_insertionSort dateLe _
  · intro table env
    have hfilter : table.filter (rowMatches (buildQuery none env)) = table := by
      rw [List.filter_eq_self]
      intro a _
      rfl
    have hperm : (queryRows table none env).Perm table := by
      unfold queryRows runQuery
      rw [hfilter]
      exact List.perm_insertionSort dateLe table
    refine ⟨hperm, ?_⟩
    show ListResult.success (queryRows table none env).length _ = _
    rw [hperm.length_eq]

/-- **C5**: a by-id lookup for an id carried by no row returns the
dedicated `"Checkpoint not found"` variant without details; a store
failure with any other code returns `"Failed to fetch checkpoint"` with
the store message, a local exception `"Internal server error"`, and the
error strings are pairwise distinct, so callers can branch on absence
versus transport failure. -/
theorem getCheckpointById_not_found (table : List Checkpoint) (i : Int)
    (h : ∀ r ∈ table, r.id ≠ i) :
    getCheckpointById (runSingle table i)
      = .failure "Checkpoint not found" none
    ∧ (∀ code msg, code ≠ "PGRST116" →
        getCheckpointById (.err code msg)
          = .failure "Failed to fetch checkpoint" (some msg))
    ∧ (∀ e, getCheckpointById (.thrown e)
        = .failure "Internal server error" (some (e.getD "Unknown error")))
    ∧ ("Checkpoint not found" ≠ "Failed to fetch checkpoint"
        ∧ "Checkpoint not found" ≠ "Internal server error") := by
  refine ⟨?_, ?_, fun _ => rfl, by decide⟩
  · have hnil : table.filter (fun r => r.id == i) = [] := by
      rw [List.filter_eq_nil_iff]
      intro r hr
      simpa using h r hr
    unfold runSingle
    rw [hnil]
    rfl
  · intro code msg hc
    simp [getCheckpointById, hc]

/-- Witness for C5: id 9999 is absent from the one-record table, and a
store failure with an HTTP-level code is reported as a fetch failure. -/
theorem getCheckpointById_not_found_witness :
    getCheckpointById (runSingle [sampleCheckpoint] 9999)
      = .failure "Checkpoint not found" none
    ∧ getCheckpointById (.err "500" "network outage")
      = .failure "Failed to fetch checkpoint" (some "network outage") :=
  ⟨(getCheckpointById_not_found [sampleCheckpoint] 9999 (by decide)).1,
   (getCheckpointById_not_found [sampleCheckpoint] 9999 (by decide)).2.1
      "500" "network outage" (by decide)⟩

/-- **C8**: every fetch attempt of the hook first sets `loading` and
clears `error`; on completion exactly one of `checkpoints` and `error` is
populated, never both: a failed fetch stores the error message and resets
the data to the empty list with count 0, while a successful fetch stores
the data and leaves `error` at `null`. -/
theorem useCheckpoints_fetch_state :
    (∀ s : HookState,
        (fetchStart s).loading = true ∧ (fetchStart s).error = none)
    ∧ (∀ s e d, fetchCheckpoints s (.failure e d)
        = { checkpoints := [], count := 0, loading := false,
            error := some e })
    ∧ (∀ s n cps, fetchCheckpoints s (.success n cps)
        = { checkpoints := cps, count := n, loading := false,
            error := none }) :=
  ⟨fun _ => ⟨rfl, rfl⟩, fun _ _ _ => rfl, fun _ _ _ => rfl⟩

/-- The clock of a device in UTC-8 on the evening of 2024-12-25: the
local calendar day is 2024-12-25 while the UTC calendar day is already
2024-12-26. -/
def envUtcAhead : Env := ⟨jsMakeDay 2024 11 25, "2024-12-26"⟩

/-- **C1** (failing run): with local calendar date 2024-12-25 and UTC
date 2024-12-26, a checkpoint dated exactly today — which the
repository's own date utility classifies as today and upcoming — is
excluded by the `upcoming: true` query: `getCheckpoints` bounds the query
with `new Date().toISOString().split('T')[0]`, the UTC calendar date,
instead of the local calendar date. -/
theorem upcoming_filter_uses_utc_day :
    isToday (some sampleCheckpoint.Date) envUtcAhead = true
    ∧ isUpcoming (some sampleCheckpoint.Date) envUtcAhead = true
    ∧ getCheckpoints (.table [sampleCheckpoint])
        (some { upcoming := some true }) envUtcAhead
      = .success 0 [] := by
  refine ⟨by decide, by decide, ?_⟩
  decide

/-! ### Characterizations of `ILIKE` matching -/

/-- A leading `%` matches any split of the text. -/
theorem likeMatch_percent (p : List Char) (s : List Char) :
    likeMatch ('%' :: p) s = true
      ↔ ∃ s1 s2, s = s1 ++ s2 ∧ likeMatch p s2 = true := by
  induction s with
  | nil =>
    constructor
    · intro h
      refine ⟨[], [], rfl, ?_⟩
      simpa [likeMatch] using h
    · rintro ⟨s1, s2, he, h⟩
      obtain ⟨rfl, rfl⟩ := List.append_eq_nil.mp he.symm
      simpa [likeMatch] using h
  | cons c s' ih =>
    have hstep : likeMatch ('%' :: p) (c :: s')
        = (likeMatch p (c :: s') || likeMatch ('%' :: p) s') := by
      simp [likeMatch]
    rw [hstep, Bool.or_eq_true, ih]
    constructor
    · rintro (h | ⟨s1, s2, he, h⟩)
      · exact ⟨[], c :: s', rfl, h⟩
      · exact ⟨c :: s1, s2, by rw [he, List.cons_append], h⟩
    · rintro ⟨s1, s2, he, h⟩
      cases s1 with
      | nil =>
        rw [List.nil_append] at he
        exact Or.inl (by rw [he]; exact h)
      | cons a s1' =>
        rw [List.cons_append] at he
        obtain ⟨rfl, hs⟩ := List.cons.inj he
        exact Or.inr ⟨s1', s2, hs, h⟩

/-- A metacharacter-free pattern matches exactly the texts equal to it up
to case folding. -/
theorem likeMatch_literal (p : List Char)
    (hp : ∀ c ∈ p, c ≠ '%' ∧ c ≠ '_') (s : List Char) :
    likeMatch p s = true ↔ p.map Char.toLower = s.map Char.toLower := by
  induction p generalizing s with
  | nil => cases s <;> simp [likeMatch]
  | cons a p' ih =>
    obtain ⟨ha1, ha2⟩ := hp a (List.mem_cons_self a p')
    have hp' : ∀ c ∈ p', c ≠ '%' ∧ c ≠ '_' :=
      fun c hc => hp c (List.mem_cons_of_mem a hc)
    cases s with
    | nil => simp [likeMatch, ha1]
    | cons c s' =>
      have hstep : likeMatch (a :: p') (c :: s')
          = ((a.toLower == c.toLower) && likeMatch p' s') := by
        simp [likeMatch, ha1, ha2]
      rw [hstep, Bool.and_eq_true, beq_iff_eq, ih hp']
      simp [List.map_cons]

/-- A metacharacter-free pattern followed by `%` matches exactly the
texts beginning with it up to case folding. -/
theorem likeMatch_head (t : List Char)
    (ht : ∀ c ∈ t, c ≠ '%' ∧ c ≠ '_') (s : List Char) :
    likeMatch (t ++ ['%']) s = true
      ↔ ∃ u v, s = u ++ v ∧ u.map Char.toLower = t.map Char.toLower := by
  induction t generalizing s with
  | nil =>
    have hall : ∀ s0 : List Char, likeMatch ['%'] s0 = true := by
      intro s0
      induction s0 with
      | nil => simp [likeMatch]
      | cons c s0' ih0 => simp [likeMatch, ih0]
    rw [List.nil_append, hall s]
    constructor
    · intro _
      exact ⟨[], s, rfl, rfl⟩
    · intro _
      rfl
  | cons a t' ih =>
    obtain ⟨ha1, ha2⟩ := ht a (List.mem_cons_self a t')
    have ht' : ∀ c ∈ t', c ≠ '%' ∧ c ≠ '_' :=
      fun c hc => ht c (List.mem_cons_of_mem a hc)
    cases s with
    | nil =>
      have hfalse : likeMatch ((a :: t') ++ ['%']) [] = false := by
        simp [likeMatch, ha1]
      rw [hfalse]
      constructor
      · intro h
        exact absurd h (by simp)
      · rintro ⟨u, v, he, hm⟩
        obtain ⟨rfl, rfl⟩ := List.append_eq_nil.mp he.symm
        simp at hm
    | cons c s' =>
      have hstep : likeMatch ((a :: t') ++ ['%']) (c :: s')
          = ((a.toLower == c.toLower) && likeMatch (t' ++ ['%']) s') := by
        simp [likeMatch, ha1, ha2]
      rw [hstep, Bool.and_eq_true, beq_iff_eq, ih ht']
      constructor
      · rintro ⟨hac, u, v, rfl, hm⟩
        exact ⟨c :: u, v, rfl, by simp [hm, hac]⟩
      · rintro ⟨u, v, he, hm⟩
        cases u with
        | nil => simp at hm
        | cons b u' =>
          rw [List.cons_append] at he
          obtain ⟨rfl, hs⟩ := List.cons.inj he
          simp only [List.map_cons, List.cons.injEq] at hm
          exact ⟨hm.1.symm, u', v, hs, hm.2⟩

/-- The pattern `%text%` built for `city`/`county` matches exactly the
column values containing the text, up to case folding. -/
theorem likeMatch_contains (t : List Char)
    (ht : ∀ c ∈ t, c ≠ '%' ∧ c ≠ '_') (s : List Char) :
    likeMatch ('%' :: (t ++ ['%'])) s = true
      ↔ ∃ a b, s.map Char.toLower = a ++ t.map Char.toLower ++ b := by
  rw [likeMatch_percent]
  constructor
  · rintro ⟨s1, s2, rfl, h2⟩
    obtain ⟨u, v, rfl, hm⟩ := (likeMatch_head t ht s2).mp h2
    refine ⟨s1.map Char.toLower, v.map Char.toLower, ?_⟩
    simp [hm]
  · rintro ⟨a, b, hab⟩
    have hab2 : s.map Char.toLower = a ++ (t.map Char.toLower ++ b) := by
      rw [hab, List.append_assoc]
    obtain ⟨l1, l2, rfl, hm1, hm2⟩ := List.map_eq_append_iff.mp hab2
    obtain ⟨m1, m2, rfl, hn1, hn2⟩ := List.map_eq_append_iff.mp hm2
    exact ⟨l1, m1 ++ m2, rfl, (likeMatch_head t ht _).mpr ⟨m1, m2, rfl, hn1⟩⟩

/-! ### The built query, condition by condition -/

/-- The query built from present filters, field by field. -/
theorem buildQuery_fields (f : CheckpointFilters) (env : Env) :
    buildQuery (some f) env
      = ⟨if truthy f.state then f.state else none,
         if truthy f.city then f.city.map (fun c => "%" ++ c ++ "%")
           else none,
         if truthy f.county then f.county.map (fun c => "%" ++ c ++ "%")
           else none,
         if truthyBool f.upcoming then some env.utcDateStr else none⟩ := by
  unfold buildQuery
  simp only [Option.some_bind]
  split_ifs <;> rfl

/-- The `state` condition: imposed only when the field is a truthy
string, and then exact case-insensitive equality. -/
theorem colCond_state_iff (st : Option String) (text : String)
    (h : ∀ str, st = some str → noWild str) :
    colCond (if truthy st then st else none) text = true
      ↔ ∀ str, st = some str → str ≠ "" →
          str.data.map Char.toLower = text.data.map Char.toLower := by
  cases st with
  | none => simp [colCond, truthy]
  | some str =>
    by_cases he : str = ""
    · subst he
      simp [colCond, truthy]
    · have hnw : noWild str := h str rfl
      simp [colCond, truthy, he, likeMatch_literal str.data hnw text.data]

/-- A `city`/`county` condition: imposed only when the field is a truthy
string, and then case-insensitive substring containment. -/
theorem colCond_contains_iff (ci : Option String) (text : String)
    (h : ∀ str, ci = some str → noWild str) :
    colCond (if truthy ci then ci.map (fun c => "%" ++ c ++ "%") else none)
        text = true
      ↔ ∀ str, ci = some str → str ≠ "" →
          ∃ a b, text.data.map Char.toLower
            = a ++ str.data.map Char.toLower ++ b := by
  cases ci with
  | none => simp [colCond, truthy]
  | some str =>
    by_cases he : str = ""
    · subst he
      simp [colCond, truthy]
    · have hnw : noWild str := h str rfl
      have hpat : ("%" ++ str ++ "%").data = '%' :: (str.data ++ ['%']) :=
        rfl
      simp [colCond, truthy, he, hpat,
        likeMatch_contains str.data hnw text.data]

/-- The `upcoming` condition: imposed only when the flag is `some true`,
and then the `gte` bound on the `Date` column. -/
theorem gteCond_iff (up : Option Bool) (env : Env) (text : String) :
    gteCond (if truthyBool up then some env.utcDateStr else none) text
        = true
      ↔ (up = some true → strLe env.utcDateStr text = true) := by
  cases up with
  | none => simp [gteCond, truthyBool]
  | some b => cases b <;> simp [gteCond, truthyBool]

/-- The clock of a device where local time and UTC fall on the same
calendar day 2024-12-25. -/
def envAligned : Env := ⟨jsMakeDay 2024 11 25, "2024-12-25"⟩

/-- **C6**: all provided filters apply conjunctively and omitted ones
impose no restriction — membership in the result set is equivalent to
membership in the table together with an exact case-insensitive `state`
match, case-insensitive substring matches for `city` and `county`, and
the `upcoming` date bound — and `{state: "ca"}` and `{state: "CA"}`
produce identical result sets. -/
theorem filters_conjunctive (table : List Checkpoint) (env : Env)
    (f : CheckpointFilters) (r : Checkpoint)
    (hs : ∀ str, f.state = some str → noWild str)
    (hc : ∀ str, f.city = some str → noWild str)
    (hk : ∀ str, f.county = some str → noWild str) :
    (r ∈ queryRows table (some f) env
      ↔ r ∈ table
        ∧ (∀ str, f.state = some str → str ≠ "" →
            str.data.map Char.toLower = r.State.data.map Char.toLower)
        ∧ (∀ str, f.city = some str → str ≠ "" →
            ∃ a b, r.City.data.map Char.toLower
              = a ++ str.data.map Char.toLower ++ b)
        ∧ (∀ str, f.county = some str → str ≠ "" →
            ∃ a b, r.County.data.map Char.toLower
              = a ++ str.data.map Char.toLower ++ b)
        ∧ (f.upcoming = some true → strLe env.utcDateStr r.Date = true))
    ∧ queryRows table (some { state := some "ca" }) env
        = queryRows table (some { state := some "CA" }) env := by
  constructor
  · have hmem : r ∈ queryRows table (some f) env
        ↔ r ∈ table ∧ rowMatches (buildQuery (some f) env) r = true := by
      unfold queryRows runQuery
      rw [List.mem_insertionSort, List.mem_filter]
    rw [hmem, buildQuery_fields]
    simp only [rowMatches, Bool.and_eq_true]
    rw [colCond_state_iff _ _ hs, colCond_contains_iff _ _ hc,
      colCond_contains_iff _ _ hk, gteCond_iff]
    tauto
  · have hca : ∀ x : String,
        likeMatch "ca".data x.data = likeMatch "CA".data x.data := by
      intro x
      have h1 := likeMatch_literal "ca".data (by decide) x.data
      have h2 := likeMatch_literal "CA".data (by decide) x.data
      have h3 : "ca".data.map Char.toLower = "CA".data.map Char.toLower := by
        decide
      apply Bool.coe_iff_coe.mp
      rw [h1, h2, h3]
    have hq1 : buildQuery (some { state := some "ca" }) env
        = ⟨some "ca", none, none, none⟩ := rfl
    have hq2 : buildQuery (some { state := some "CA" }) env
        = ⟨some "CA", none, none, none⟩ := rfl
    have hrows : ∀ a ∈ table,
        rowMatches (buildQuery (some { state := some "ca" }) env) a
          = rowMatches (buildQuery (some { state := some "CA" }) env) a := by
      intro a _
      rw [hq1, hq2]
      simp [rowMatches, colCond, gteCond, hca a.State]
    unfold queryRows runQuery
    rw [List.filter_congr hrows]

/-- Witness for C6: the wildcard-free filters
`{state: "CA", city: "Los", upcoming: true}` on the one-record table. -/
theorem filters_conjunctive_witness :
    queryRows [sampleCheckpoint] (some { state := some "ca" }) envAligned
      = queryRows [sampleCheckpoint] (some { state := some "CA" })
          envAligned :=
  (filters_conjunctive [sampleCheckpoint] envAligned
    { state := some "CA", city := some "Los", county := none,
      upcoming := some true }
    sampleCheckpoint
    (by intro str h; injection h with h; subst h; decide)
    (by intro str h; injection h with h; subst h; decide)
    (by intro str h; injection h)).2

/-- **C10**: a filters value whose `state`, `city` or `county` is the
empty string (or whose `upcoming` is `false`) is falsy at that field, so
the corresponding condition is skipped and `getCheckpoints` returns
exactly what it returns with the field omitted; with every field empty or
false it behaves as with no filters at all. -/
theorem empty_filters_no_restriction (f : CheckpointFilters) :
    (∀ store env,
        getCheckpoints store (some { f with state := some "" }) env
          = getCheckpoints store (some { f with state := none }) env)
    ∧ (∀ store env,
        getCheckpoints store (some { f with city := some "" }) env
          = getCheckpoints store (some { f with city := none }) env)
    ∧ (∀ store env,
        getCheckpoints store (some { f with county := some "" }) env
          = getCheckpoints store (some { f with county := none }) env)
    ∧ (∀ store env,
        getCheckpoints store (some { f with upcoming := some false }) env
          = getCheckpoints store (some { f with upcoming := none }) env)
    ∧ (∀ store env,
        getCheckpoints store
            (some { state := some "", city := some "", county := some "",
                    upcoming := some false }) env
          = getCheckpoints store none env) := by
  have hlift : ∀ g g2 : Option CheckpointFilters,
      (∀ env, buildQuery g env = buildQuery g2 env) →
      ∀ store env, getCheckpoints store g env = getCheckpoints store g2 env := by
    intro g g2 hq store env
    cases store <;> simp [getCheckpoints, queryRows, hq env]
  refine ⟨hlift _ _ (fun env => ?_), hlift _ _ (fun env => ?_),
    hlift _ _ (fun env => ?_), hlift _ _ (fun env => ?_),
    hlift _ _ (fun env => ?_)⟩ <;> rfl

end DuiApp
